import Mathlib

/-!
Shallow embedding of the `commander` Go package (`commander.go`): a structured
command-line dispatch library.  Commands are grouped into categories; a command
holds an opaque handler function whose reflective shape drives flag synthesis,
parsing and invocation.  Go maps are modelled as association lists (Go map
iteration order is unspecified; the list order is one admissible order --
every claim proved below is order-insensitive or uses a concrete registry).
Handlers are modelled by their reflective type shape: every handler stored in
this repository is a function, so the `reflect.Func` kind check always passes.
The commander's output sink (`io.Writer`) is modelled as an accumulated string.
-/

/-- Kind of a struct field as seen by `reflect` (`field.Type.Kind()`).
`otherK` covers every kind outside Bool/Int/String and carries the printed
type (`field.Type.String()`), used only by `PrintUsage`. -/
inductive FieldKind where
  | boolK
  | intK
  | stringK
  | otherK (typeStr : String)
deriving DecidableEq, Repr

/-- One field of a Structured handler's second parameter: Go field name plus
the three recognized struct tags (`flag`, `default`, `usage`); an absent tag
reads as `""` via `reflect.StructTag.Get`. -/
structure StructField where
  name : String
  kind : FieldKind
  tagFlag : String
  tagDefault : String
  tagUsage : String
deriving DecidableEq, Repr

/-- Reflective shape of one handler parameter.  `context` stands for any type
implementing `context.Context`; `structT` is a flat struct (kind Struct) with
its fields; `stringT` is kind String; `otherT` is any other kind, carrying its
printed type for the `unsupported argument type` error message. -/
inductive ParamType where
  | context
  | structT (fields : List StructField)
  | stringT
  | otherT (typeStr : String)
deriving DecidableEq, Repr

/-- A handler value: either an opaque user function of the given parameter
shape, or the commander's own bound method `helpHandler`
(shape `func(context.Context, string)`). -/
inductive Handler where
  | user (params : List ParamType)
  | helpH
deriving DecidableEq, Repr

/-- `reflect.TypeOf(handler)` parameter list. -/
def Handler.params : Handler → List ParamType
  | .user ps => ps
  | .helpH => [.context, .stringT]

/-- A typed Go value held in a bound argument struct.  `otherV` is the zero
value of an unsupported field kind (left untouched by the flag machinery). -/
inductive GoValue where
  | boolV (b : Bool)
  | intV (n : Int)
  | stringV (s : String)
  | otherV
deriving DecidableEq, Repr

/-- `Command`: name, description, handler (the scratch `flags *flag.FlagSet`
field, rebuilt on every dispatch and never read, is omitted). -/
structure Command where
  name : String
  description : String
  handler : Handler
deriving DecidableEq, Repr

/-- `Category`: name and its command map. -/
structure Category where
  name : String
  commands : List (String × Command)
deriving DecidableEq, Repr

/-- `Commander`: category map, injected raw argument tokens, output sink
(modelled as the string written so far). -/
structure Commander where
  categories : List (String × Category)
  args : List String
  output : String
deriving DecidableEq, Repr

/-- Go map lookup `m[k]` on the association-list model. -/
def mapLookup (k : String) : List (String × α) → Option α
  | [] => none
  | (k2, v) :: t => if k2 = k then some v else mapLookup k t

/-- Go map assignment `m[k] = v`: replace in place, else append. -/
def mapInsert (k : String) (v : α) : List (String × α) → List (String × α)
  | [] => [(k, v)]
  | (k2, v2) :: t => if k2 = k then (k, v) :: t else (k2, v2) :: mapInsert k v t

/-- Errors surfaced by `Run` (the sentinel errors of `commander.go`, with the
dynamic data carried by `fmt.Errorf` wrapping). -/
inductive RunError where
  | noSubcommand
  | unknownCommand (name : String)
  | invalidHandler
  | unsupportedArgType (typeStr : String)
deriving DecidableEq, Repr

/-- `err.Error()` for the errors above. -/
def RunError.message : RunError → String
  | .noSubcommand => "no subcommand provided"
  | .unknownCommand n => "unknown command: " ++ n
  | .invalidHandler => "handler must be a function accepting context.Context"
  | .unsupportedArgType t => "unsupported argument type: " ++ t

/-! ### Type coercion layer -/

/-- Numeric value of a nonempty digit string. -/
def digitsVal (ds : List Char) : Int :=
  ds.foldl (fun a c => a * 10 + (Int.ofNat (c.toNat - 48))) 0

/-- The `fmt` package's white-space table (`fmt/print.go` `isSpace`): the
code points it treats as space when skipping ahead of a verb. -/
def isGoSpace (c : Char) : Bool :=
  let n := c.toNat
  (9 ≤ n ∧ n ≤ 13) ∨ n = 32 ∨ n = 133 ∨ n = 160 ∨ n = 5760
    ∨ (8192 ≤ n ∧ n ≤ 8202) ∨ n = 8232 ∨ n = 8233 ∨ n = 8239 ∨ n = 8287 ∨ n = 12288

/-- `fmt`'s `ss.skipSpace` as run by `Sscanf` (newlines are not space for
`Sscanf`): skip space characters, but a newline in the input -- with a
carriage-return/newline pair read as a newline -- is an error
(`unexpected newline`, returned as `none`); a lone carriage return is skipped
as plain space. -/
def sscanfSkipSpace : List Char → Option (List Char)
  | [] => some []
  | '\r' :: '\n' :: _ => none
  | '\n' :: _ => none
  | c :: t => if isGoSpace c then sscanfSkipSpace t else some (c :: t)

/-- `fmt.Sscanf(s, "%d", &x)` leaving `x = 0` on scan failure: skip leading
space (a leading newline is an error and leaves the variable 0), read an
optional sign and a greedy run of decimal digits (no digit is an error,
leaving 0), then convert via `strconv.ParseInt(token, 10, 64)`, whose range
error on a value outside the signed 64-bit range also leaves the variable 0.
Trailing junk after the digits is not an error for `Sscanf`. -/
def sscanfD (s : String) : Int :=
  match sscanfSkipSpace s.data with
  | none => 0
  | some cs =>
    let signed : Int × List Char :=
      match cs with
      | '-' :: t => (-1, t)
      | '+' :: t => (1, t)
      | _ => (1, cs)
    let ds := signed.2.takeWhile (fun c => c.isDigit)
    if ds.isEmpty then 0
    else
      let v := signed.1 * digitsVal ds
      if v < -(2 ^ 63) ∨ (2 ^ 63 - 1 : Int) < v then 0 else v

/-- `strconv.ParseBool` as used by `flag.boolValue.Set`. -/
def goParseBool (s : String) : Option Bool :=
  match s with
  | "1" => some true
  | "t" => some true
  | "T" => some true
  | "true" => some true
  | "TRUE" => some true
  | "True" => some true
  | "0" => some false
  | "f" => some false
  | "F" => some false
  | "false" => some false
  | "FALSE" => some false
  | "False" => some false
  | _ => none

/-- `strconv`'s `lower`: blind bitwise-or with 0x20 on a byte (code point
below 128; a multi-byte rune never passes the digit checks below, matching
Go's bytewise scan where every byte of such a rune is rejected). -/
def lowerOr32 (n : Nat) : Nat := n ||| 32

/-- One digit of the given base, as `strconv.ParseUint`'s scan loop accepts
it: a decimal digit, or a letter whose case-folded value is below the base. -/
def goDigit (base : Nat) (c : Char) : Option Nat :=
  let n := c.toNat
  if 48 ≤ n ∧ n ≤ 57 then
    if n - 48 < base then some (n - 48) else none
  else if n < 128 ∧ 97 ≤ lowerOr32 n ∧ lowerOr32 n ≤ 122 then
    if lowerOr32 n - 97 + 10 < base then some (lowerOr32 n - 97 + 10) else none
  else none

/-- `strconv.ParseUint`'s digit loop for a base-0 call: underscores are
skipped (their placement is validated separately), every other character must
be a digit of the base.  The value is accumulated unboundedly; range errors
are applied by the caller (both `ParseUint`'s 64-bit cutoff and `ParseInt`'s
signed cutoffs produce an error, which is all `flag` observes). -/
def goDigitsValue (base : Nat) : Nat → List Char → Option Nat
  | n, [] => some n
  | n, '_' :: t => goDigitsValue base n t
  | n, c :: t =>
    match goDigit base c with
    | some d => goDigitsValue base (n * base + d) t
    | none => none

/-- The `saw` state of `strconv`'s `underscoreOK`: start of number, digit or
base prefix, underscore, or anything else. -/
inductive USaw where
  | caret
  | dig
  | und
  | bang
deriving DecidableEq, Repr

/-- The scan loop of `strconv`'s `underscoreOK`. -/
def underscoreOKLoop (hex : Bool) : USaw → List Char → Bool
  | saw, [] => decide (saw ≠ .und)
  | saw, c :: t =>
    let n := c.toNat
    if (48 ≤ n ∧ n ≤ 57) ∨ (hex ∧ n < 128 ∧ 97 ≤ lowerOr32 n ∧ lowerOr32 n ≤ 102) then
      underscoreOKLoop hex .dig t
    else if c = '_' then
      if saw = .dig then underscoreOKLoop hex .und t else false
    else if saw = .und then false
    else underscoreOKLoop hex .bang t

/-- `strconv.underscoreOK`: underscores may appear only between successive
digits or between the base prefix and a digit.  Applied to the full input
(sign and base prefix included). -/
def underscoreOK (s : List Char) : Bool :=
  let s1 :=
    match s with
    | c :: t => if c = '-' ∨ c = '+' then t else c :: t
    | [] => []
  match s1 with
  | '0' :: c :: t =>
    if lowerOr32 c.toNat = 98 ∨ lowerOr32 c.toNat = 111 ∨ lowerOr32 c.toNat = 120 then
      underscoreOKLoop (lowerOr32 c.toNat = 120) .dig t
    else underscoreOKLoop false .caret ('0' :: c :: t)
  | _ => underscoreOKLoop false .caret s1

/-- `strconv.ParseInt(s, 0, strconv.IntSize)` as called by
`flag.intValue.Set` on a 64-bit platform: optional sign; base selected by
prefix (`0b`/`0o`/`0x`, a bare leading zero meaning octal, else decimal);
underscores allowed between digits under `underscoreOK`; syntax errors and
values outside the signed 64-bit range yield `none` (the `flag` package turns
any error into its invalid-value parse error). -/
def goParseInt0 (s : String) : Option Int :=
  match s.data with
  | [] => none
  | c0 :: rest0 =>
    let neg := c0 = '-'
    let body := if c0 = '-' ∨ c0 = '+' then rest0 else c0 :: rest0
    match body with
    | [] => none
    | b0 :: brest =>
      let pstrip : Nat × List Char :=
        match b0 :: brest with
        | '0' :: c :: t =>
          if lowerOr32 c.toNat = 98 ∧ t ≠ [] then (2, t)
          else if lowerOr32 c.toNat = 111 ∧ t ≠ [] then (8, t)
          else if lowerOr32 c.toNat = 120 ∧ t ≠ [] then (16, t)
          else (8, c :: t)
        | '0' :: t => (8, t)
        | other => (10, other)
      if s.data.contains '_' ∧ ¬ underscoreOK s.data then none
      else
        match goDigitsValue pstrip.1 0 pstrip.2 with
        | none => none
        | some n =>
          if neg then (if 2 ^ 63 < n then none else some (-(Int.ofNat n)))
          else (if 2 ^ 63 - 1 < n then none else some (Int.ofNat n))

/-- Flag name of a struct field: the `flag` tag if nonempty, else the
lower-cased field name (`handleStructArgs`). -/
def fieldFlagName (f : StructField) : String :=
  if f.tagFlag ≠ "" then f.tagFlag else f.name.toLower

/-- The default value bound at flag-registration time (`handleStructArgs`):
bool defaults compare the tag against the literal string true; int defaults go
through `fmt.Sscanf` prefix scanning; string defaults pass through; fields of
unsupported kind are skipped and keep their reflect zero value. -/
def fieldDefault (f : StructField) : GoValue :=
  match f.kind with
  | .boolK => .boolV (f.tagDefault = "true")
  | .intK => .intV (if f.tagDefault ≠ "" then sscanfD f.tagDefault else 0)
  | .stringK => .stringV f.tagDefault
  | .otherK _ => .otherV

/-- Whether `handleStructArgs` registers a flag for this field kind. -/
def FieldKind.isSupported : FieldKind → Bool
  | .boolK => true
  | .intK => true
  | .stringK => true
  | .otherK _ => false

/-! ### Flag parsing (`flag.FlagSet` with the flags registered by
`handleStructArgs`) -/

/-- Kind of a registered flag variable: exactly the three `Var` calls made by
`handleStructArgs` (`BoolVar` / `IntVar` / `StringVar`). -/
inductive FlagKind where
  | boolF
  | intF
  | stringF
deriving DecidableEq, Repr

/-- One registered flag: name, kind, current value (the pointed-to struct
field, initialized to the default at registration time). -/
abbrev FlagEntry := String × FlagKind × GoValue

/-- `f.formal[name]` lookup. -/
def lookupFlag (n : String) : List FlagEntry → Option (FlagKind × GoValue)
  | [] => none
  | (k, e) :: t => if k = n then some e else lookupFlag n t

/-- `flag.Value.Set` writing through the pointer of the (unique -- the flag
package panics on redefinition) flag with this name. -/
def setFlag (n : String) (v : GoValue) : List FlagEntry → List FlagEntry
  | [] => []
  | (k, kind, old) :: t =>
    if k = n then (k, kind, v) :: t else (k, kind, old) :: setFlag n v t

/-- Split the flag body at the first `=` strictly after index 0
(the `for i := 1; ...` loop of `parseOne`). -/
def splitEqArg : List Char → List Char × Option String
  | [] => ([], none)
  | '=' :: t => ([], some (String.mk t))
  | c :: t =>
    let r := splitEqArg t
    (c :: r.1, r.2)

/-- Result of `FlagSet.Parse`: success with the final flag variables, the
distinguished `flag.ErrHelp`, or a parse error message. -/
inductive ParseOutcome where
  | ok (vals : List FlagEntry)
  | errHelp
  | err (msg : String)
deriving DecidableEq, Repr

/-- Result of one `flag.(*FlagSet).parseOne` step: stop without error (no
more tokens, a token shorter than 2 bytes or not starting with a dash, or the
bare double-dash terminator), one flag consumed with the remaining tokens,
`flag.ErrHelp`, or a parse error. -/
inductive ParseStep where
  | done
  | seen (vals : List FlagEntry) (rest : List String)
  | help
  | fail (msg : String)
deriving DecidableEq, Repr

/-- `flag.(*FlagSet).parseOne`: strip one or two dashes, reject a further
leading dash or equals sign, split an inline value at the first equals sign,
and set the named flag -- booleans from presence or the inline value, int and
string flags from the inline value or the next token. -/
def parseOne (vals : List FlagEntry) (args : List String) : ParseStep :=
  match args with
  | [] => .done
  | s :: rest =>
    match s.data with
    | [] => .done
    | [_] => .done
    | c0 :: c1 :: cs2 =>
      if c0 ≠ '-' then .done
      else if c1 = '-' ∧ cs2 = [] then .done
      else
        match (if c1 = '-' then cs2 else c1 :: cs2) with
        | [] => .fail ("bad flag syntax: " ++ s)
        | n0 :: ntail =>
          if n0 = '-' ∨ n0 = '=' then .fail ("bad flag syntax: " ++ s)
          else
            let se := splitEqArg (n0 :: ntail)
            let name := String.mk se.1
            match lookupFlag name vals with
            | none =>
              if name = "help" ∨ name = "h" then .help
              else .fail ("flag provided but not defined: -" ++ name)
            | some (kind, _) =>
              match kind with
              | .boolF =>
                match se.2 with
                | some v =>
                  match goParseBool v with
                  | some b => .seen (setFlag name (.boolV b) vals) rest
                  | none => .fail ("invalid boolean value " ++ v ++ " for -" ++ name)
                | none => .seen (setFlag name (.boolV true) vals) rest
              | .intF =>
                match se.2 with
                | some v =>
                  match goParseInt0 v with
                  | some n => .seen (setFlag name (.intV n) vals) rest
                  | none => .fail ("invalid value " ++ v ++ " for flag -" ++ name)
                | none =>
                  match rest with
                  | v :: rest2 =>
                    match goParseInt0 v with
                    | some n => .seen (setFlag name (.intV n) vals) rest2
                    | none => .fail ("invalid value " ++ v ++ " for flag -" ++ name)
                  | [] => .fail ("flag needs an argument: -" ++ name)
              | .stringF =>
                match se.2 with
                | some v => .seen (setFlag name (.stringV v) vals) rest
                | none =>
                  match rest with
                  | v :: rest2 => .seen (setFlag name (.stringV v) vals) rest2
                  | [] => .fail ("flag needs an argument: -" ++ name)

/-- Iteration of `parseOne`, structured with explicit fuel so that the
definition is kernel-computable.  Each consumed flag strictly shortens the
token list (`parseOne_seen_length` below), so with fuel `args.length` the
zero-fuel truncation is never reached on a nonempty token list, and at fuel
zero the token list is empty, where `parseOne` stops with `.done` anyway
(`parseLoopF_fuel` below makes this exact). -/
def parseLoopF : List FlagEntry → List String → Nat → ParseOutcome
  | vals, _, 0 => .ok vals
  | vals, args, fuel + 1 =>
    match parseOne vals args with
    | .done => .ok vals
    | .help => .errHelp
    | .fail m => .err m
    | .seen vals2 rest => parseLoopF vals2 rest fuel

/-- `flag.(*FlagSet).Parse`: iterate `parseOne` until it stops or fails. -/
def parseLoop (vals : List FlagEntry) (args : List String) : ParseOutcome :=
  parseLoopF vals args args.length

/-- The flag kind registered for a supported field kind (unused junk value for
unsupported kinds, which are never registered). -/
def FieldKind.flagKind : FieldKind → FlagKind
  | .boolK => .boolF
  | .intK => .intF
  | .stringK => .stringF
  | .otherK _ => .boolF

/-- Flag registration performed by `handleStructArgs`: walk the struct fields
in declaration order, register Bool/Int/String fields under their flag name
with the coerced default as initial value; other kinds are silently skipped.
`flag.(*FlagSet).Var` panics when a name is registered twice (after printing
the message to the flag set's own output, standard error by default -- not
the commander's sink): the error carries the offending flag name. -/
def registerFlagsFrom (acc : List FlagEntry) :
    List StructField → Except String (List FlagEntry)
  | [] => .ok acc
  | f :: fs =>
    if f.kind.isSupported then
      if (lookupFlag (fieldFlagName f) acc).isSome then .error (fieldFlagName f)
      else registerFlagsFrom (acc ++ [(fieldFlagName f, f.kind.flagKind, fieldDefault f)]) fs
    else registerFlagsFrom acc fs

/-- Registration of a whole struct, starting from an empty flag set. -/
def registerFlags (fields : List StructField) : Except String (List FlagEntry) :=
  registerFlagsFrom [] fields

/-- The struct value passed to the handler after a successful parse: each
supported field reads its registered flag variable, unsupported fields keep
the reflect zero value. -/
def bindStruct (fields : List StructField) (vals : List FlagEntry) : List GoValue :=
  fields.map fun f =>
    if f.kind.isSupported then
      match lookupFlag (fieldFlagName f) vals with
      | some e => e.2
      | none => .otherV
    else .otherV

/-! ### Output rendering (`printf` call sites with formats precomputed) -/

def colorReset : String := "\x1b[0m"

def colorBold : String := "\x1b[1m"

def colorRed : String := "\x1b[31m"

def colorGreen : String := "\x1b[32m"

def colorYellow : String := "\x1b[33m"

def colorBlue : String := "\x1b[34m"

def colorPurple : String := "\x1b[35m"

def colorCyan : String := "\x1b[36m"

/-- Go `%-12s`: left-justify to a minimum width (rune count). -/
def padRight (s : String) (w : Nat) : String :=
  s ++ String.mk (List.replicate (w - s.length) ' ')

/-- `field.Type.String()` for the kinds the model distinguishes. -/
def FieldKind.typeString : FieldKind → String
  | .boolK => "bool"
  | .intK => "int"
  | .stringK => "string"
  | .otherK t => t

/-- The flag help block printed by `PrintUsage` for one struct field. -/
def fieldUsageLine (f : StructField) : String :=
  "    " ++ colorCyan ++ "--" ++ fieldFlagName f ++ colorReset
    ++ (if f.kind ≠ .boolK then " <" ++ f.kind.typeString ++ ">" else "")
    ++ (if f.tagUsage ≠ "" then "  " ++ f.tagUsage else "")
    ++ (if f.tagDefault ≠ ""
        then " " ++ colorYellow ++ "(default: " ++ f.tagDefault ++ ")" ++ colorReset
        else "")
    ++ "\n"

/-- The lines `PrintUsage` emits for one command: name padded to 12, the
description, and -- when the handler has a second parameter of struct kind --
one line per struct field. -/
def cmdUsageLines (name : String) (cmd : Command) : String :=
  "  " ++ colorGreen ++ padRight name 12 ++ colorReset ++ " " ++ cmd.description ++ "\n"
    ++ (match cmd.handler.params with
        | _ :: .structT fields :: _ => String.join (fields.map fieldUsageLine)
        | _ => "")

/-- The block `PrintUsage` emits for one category. -/
def catUsageBlock (cat : Category) : String :=
  "\n" ++ colorYellow ++ "📁 " ++ cat.name ++ colorReset ++ "\n"
    ++ String.join (cat.commands.map fun p => cmdUsageLines p.1 p.2)

/-- Everything `PrintUsage` writes to the output sink. -/
def usageString (cats : List (String × Category)) : String :=
  colorBold ++ colorCyan ++ "🚀 Available Commands:" ++ colorReset ++ "\n"
    ++ String.join (cats.map fun p => catUsageBlock p.2)
    ++ "\n" ++ colorBold ++ colorPurple ++ "💡 Usage:" ++ colorReset ++ "\n"
    ++ "  " ++ colorBlue ++ "command [flags]" ++ colorReset ++ "\n"

/-- `fmt.Fprintf(c.output, ...)` accumulated on the modelled sink. -/
def Commander.writeOut (c : Commander) (s : String) : Commander :=
  { c with output := c.output ++ s }

/-- `c.PrintUsage()`. -/
def Commander.printUsage (c : Commander) : Commander :=
  c.writeOut (usageString c.categories)

/-! ### Registry -/

/-- `findCommand` scanning all categories for the first one whose command map
contains the name. -/
def findIn (name : String) : List (String × Category) → Except RunError Command
  | [] => .error (.unknownCommand name)
  | (_, cat) :: t =>
    match mapLookup name cat.commands with
    | some cmd => .ok cmd
    | none => findIn name t

/-- `c.findCommand(name)`. -/
def Commander.findCommand (c : Commander) (name : String) : Except RunError Command :=
  findIn name c.categories

/-- `AddCategory`: install a fresh category with an empty command map under
the name (Go map assignment: replaces any category already there). -/
def Commander.addCategory (c : Commander) (name : String) : Commander :=
  { c with categories := mapInsert name ⟨name, []⟩ c.categories }

/-- `Category.Register` applied through the handle currently installed under
`catName` (`cat.commands[cmd.Name] = cmd`). -/
def registerCats (catName : String) (cmd : Command) :
    List (String × Category) → List (String × Category)
  | [] => []
  | (n, cat) :: t =>
    if n = catName then (n, ⟨cat.name, mapInsert cmd.name cmd cat.commands⟩) :: t
    else (n, cat) :: registerCats catName cmd t

/-- Register a command into the category currently stored under `catName`. -/
def Commander.registerIn (c : Commander) (catName : String) (cmd : Command) : Commander :=
  { c with categories := registerCats catName cmd c.categories }

/-- The built-in help command auto-registered by `NewWithArgs`. -/
def helpCommand : Command :=
  ⟨"help", "Show help information for commands", .helpH⟩

/-- `NewWithArgs`: empty registry, injected args, fresh output sink, then the
Help category with the help command. -/
def newWithArgs (args : List String) : Commander :=
  ((Commander.mk [] args ("")).addCategory ("Help")).registerIn ("Help") helpCommand

/-! ### Help handler -/

/-- The loop at the end of `helpHandler`: find the first category containing
the command name and print the per-command help block; nothing is printed if
no category contains it (unreachable after a successful `findCommand`). -/
def helpDetail (cmdName : String) (cmd : Command) : List (String × Category) → String
  | [] => ""
  | (catName, cat) :: t =>
    match mapLookup cmdName cat.commands with
    | some _ =>
      "\n" ++ colorBold ++ colorCyan ++ "Help for command \x27" ++ colorGreen ++ cmdName
        ++ colorReset ++ "\x27 in category \x27" ++ colorYellow ++ catName ++ colorReset
        ++ "\x27:" ++ colorReset ++ "\n"
        ++ colorBold ++ colorPurple ++ "Description:" ++ colorReset ++ " "
        ++ cmd.description ++ "\n"
    | none => helpDetail cmdName cmd t

/-- `helpHandler(ctx, cmdName)`: empty argument renders full usage; an unknown
name renders the error in red then full usage; a known name renders the
per-command detail block. -/
def Commander.helpHandlerRun (c : Commander) (cmdName : String) : Commander :=
  if cmdName = "" then c.printUsage
  else
    match c.findCommand cmdName with
    | .error e => (c.writeOut (colorRed ++ e.message ++ colorReset ++ "\n")).printUsage
    | .ok cmd => c.writeOut (helpDetail cmdName cmd c.categories)

/-! ### Dispatcher -/

/-- `isContextType`: does the parameter type implement `context.Context`? -/
def isContextParam : ParamType → Bool
  | .context => true
  | _ => false

/-- `isValidHandler`: kind Func (every modelled handler is a function), at
least one parameter, first parameter implements `context.Context`.  Note: no
upper bound on the parameter count is checked. -/
def isValidHandler (h : Handler) : Bool :=
  match h.params with
  | [] => false
  | p0 :: _ => isContextParam p0

/-- The argument a handler receives beyond the context value. -/
inductive HandlerCall where
  | niladic
  | structArg (vals : List GoValue)
  | stringArg (s : String)
deriving DecidableEq, Repr

/-- Result of one `Run` invocation.  `ret` carries the commander (output
updated), `Run`'s returned error if any, and the handler invocations performed
(command name and bound argument).  `exited` models `os.Exit` reached inside
`flag.ExitOnError` parsing; `panicked` models a reflection panic. -/
inductive Outcome where
  | ret (c : Commander) (err : Option RunError) (calls : List (String × HandlerCall))
  | exited (c : Commander) (code : Nat)
  | panicked (c : Commander) (msg : String)
deriving DecidableEq, Repr

/-- `callHandler` via `reflect.ValueOf(handler).Call(args)`: `prepareArgs`
sized the argument array to `NumIn()` but only ever fills slots 0 and 1, so a
handler with more than two parameters is called with zero `reflect.Value`
arguments, which panics.  The help handler's invocation runs `helpHandler`. -/
def callHandler (c : Commander) (cmd : Command) (call : HandlerCall) : Outcome :=
  if 2 < cmd.handler.params.length then
    .panicked c ("reflect: Call using zero Value argument")
  else
    match cmd.handler, call with
    | .helpH, .stringArg s => .ret (c.helpHandlerRun s) none [(cmd.name, call)]
    | _, _ => .ret c none [(cmd.name, call)]

/-- `executeCommand` / `prepareArgs` / `handleStructArgs` / `handleStringArg`
for the command found by `Run`, with `tail = c.args[2:]`.  The flag set is
created with `flag.ExitOnError`: a parse error prints to the flag set's own
output (standard error, not the commander's sink) and exits the process with
code 2 (`flag.ErrHelp` exits with 0), so the error return of
`handleStructArgs` is unreachable. -/
def executeCommand (c : Commander) (cmd : Command) (tail : List String) : Outcome :=
  if ¬ isValidHandler cmd.handler then .ret c (some .invalidHandler) []
  else if cmd.handler.params.length ≤ 1 then callHandler c cmd .niladic
  else
    match cmd.handler.params.getD 1 (.otherT ("")) with
    | .structT fields =>
      match registerFlags fields with
      | .error dup => .panicked c (cmd.name ++ " flag redefined: " ++ dup)
      | .ok entries =>
        match parseLoop entries tail with
        | .ok vals => callHandler c cmd (.structArg (bindStruct fields vals))
        | .errHelp => .exited c 0
        | .err _ => .exited c 2
    | .stringT => callHandler c cmd (.stringArg (tail.headD ("")))
    | .context => .ret c (some (.unsupportedArgType ("context.Context"))) []
    | .otherT d => .ret c (some (.unsupportedArgType d)) []

/-- `Run`: fewer than two tokens renders usage and returns `NoSubcommand`; an
unknown command renders usage and returns the lookup error; otherwise the
found command is executed. -/
def Commander.run (c : Commander) : Outcome :=
  match c.args with
  | [] => .ret c.printUsage (some .noSubcommand) []
  | [_] => .ret c.printUsage (some .noSubcommand) []
  | _ :: name :: tail =>
    match c.findCommand name with
    | .error e => .ret c.printUsage (some e) []
    | .ok cmd => executeCommand c cmd tail

/-! ### Substring containment (for output-content properties) -/

/-- Whether `pat` occurs as a contiguous run inside the character list. -/
def isSubChars (pat : List Char) : List Char → Bool
  | [] => pat.isEmpty
  | c :: t => pat.isPrefixOf (c :: t) || isSubChars pat t

/-- Whether the string `pat` occurs as a substring of `s`. -/
def containsSub (s pat : String) : Bool :=
  isSubChars pat.data s.data

/-! ### Concrete fixtures (the `TestArgs` schema and commands of
`commander_test.go`) -/

/-- The `TestArgs` struct of the test suite: a bool field `Flag1` with flag
tag `flag1` and default `false`, and a string field `Flag2` with flag tag
`flag2` and default `test`. -/
def testFields : List StructField :=
  [⟨"Flag1", .boolK, "flag1", "false", "Test flag 1"⟩,
   ⟨"Flag2", .stringK, "flag2", "test", "Test flag 2"⟩]

/-- The command registered by `TestStructArguments`. -/
def testCmd : Command :=
  ⟨"test", "Test command", .user [.context, .structT testFields]⟩

/-- Commander as the test suite builds it: `newWithArgs` plus a `Test`
category holding the test command. -/
def mkTest (args : List String) : Commander :=
  ((newWithArgs args).addCategory ("Test")).registerIn ("Test") testCmd

/-- A token tail whose first token makes `flag.Parse` stop immediately: empty
tail, a token shorter than 2 bytes, a token not starting with a dash, or the
bare double-dash terminator.  Such a tail supplies no flags at all. -/
def consumesNoFlag : List String → Bool
  | [] => true
  | s :: _ =>
    match s.data with
    | [] => true
    | [_] => true
    | c0 :: c1 :: cs2 => decide (c0 ≠ '-') || (decide (c1 = '-') && cs2.isEmpty)

/-- A schema with a single int field whose `default` tag carries a decimal
prefix followed by junk. -/
def numFields : List StructField :=
  [⟨"Num", .intK, "num", "12abc", ""⟩]

/-- A command over `numFields`. -/
def numCmd : Command :=
  ⟨"num", "Number command", .user [.context, .structT numFields]⟩

/-- Commander holding `numCmd` in a `Test` category. -/
def mkNum (args : List String) : Commander :=
  ((newWithArgs args).addCategory ("Test")).registerIn ("Test") numCmd

/-- A command whose handler has three parameters
(`func(context.Context, TestArgs, int)`). -/
def cmd3 : Command :=
  ⟨"test", "Test command", .user [.context, .structT testFields, .otherT ("int")]⟩

/-- Commander holding the three-parameter command in a `Test` category. -/
def mkTest3 (args : List String) : Commander :=
  ((newWithArgs args).addCategory ("Test")).registerIn ("Test") cmd3

/-! ### Helper lemmas -/

theorem mapLookup_insert_self (k : String) (v : α) (m : List (String × α)) :
    mapLookup k (mapInsert k v m) = some v := by
  induction m with
  | nil => simp [mapInsert, mapLookup]
  | cons p t ih =>
    obtain ⟨k2, v2⟩ := p
    by_cases h : k2 = k
    · simp [mapInsert, mapLookup, h]
    · simp [mapInsert, mapLookup, h, ih]

theorem mapLookup_insert_ne (k n : String) (v : α) (m : List (String × α)) (h : ¬ n = k) :
    mapLookup n (mapInsert k v m) = mapLookup n m := by
  have h2 : ¬ k = n := fun hh => h hh.symm
  induction m with
  | nil => simp [mapInsert, mapLookup, h2]
  | cons p t ih =>
    obtain ⟨k2, v2⟩ := p
    by_cases hk : k2 = k
    · subst hk
      simp [mapInsert, mapLookup, h2]
    · simp [mapInsert, mapLookup, hk, ih]

theorem findIn_none (name : String) (cats : List (String × Category))
    (h : ∀ p ∈ cats, mapLookup name p.2.commands = none) :
    findIn name cats = .error (.unknownCommand name) := by
  induction cats with
  | nil => rfl
  | cons p t ih =>
    obtain ⟨k2, cat⟩ := p
    have hh := h (k2, cat) (by simp)
    simp only [findIn, hh]
    exact ih fun q hq => h q (by simp [hq])

theorem isPrefixOf_self (l : List Char) : l.isPrefixOf l = true := by
  induction l with
  | nil => rfl
  | cons c t ih => simp [List.isPrefixOf, ih]

theorem isSubChars_suffix (pre pat : List Char) : isSubChars pat (pre ++ pat) = true := by
  induction pre with
  | nil =>
    cases pat with
    | nil => rfl
    | cons c t => simp [isSubChars, isPrefixOf_self]
  | cons c t ih =>
    cases hs : t ++ pat with
    | nil =>
      cases pat with
      | nil => simp [isSubChars]
      | cons d u => simp at hs
    | cons d u => simp [isSubChars, ← hs, ih]

theorem containsSub_append_right (pre pat : String) : containsSub (pre ++ pat) pat = true := by
  simpa [containsSub, String.data_append] using isSubChars_suffix pre.data pat.data

theorem isPrefixOf_append (l1 l2 l3 : List Char) (h : l1.isPrefixOf l2 = true) :
    l1.isPrefixOf (l2 ++ l3) = true := by
  induction l1 generalizing l2 with
  | nil => cases l2 ++ l3 <;> rfl
  | cons a t ih =>
    cases l2 with
    | nil => simp [List.isPrefixOf] at h
    | cons b u =>
      simp only [List.isPrefixOf, Bool.and_eq_true, beq_iff_eq, List.cons_append] at h ⊢
      exact ⟨h.1, ih u h.2⟩

theorem isSubChars_extendR (pat l1 l3 : List Char) (h : isSubChars pat l1 = true) :
    isSubChars pat (l1 ++ l3) = true := by
  induction l1 with
  | nil =>
    have hp : pat = [] := by simpa [isSubChars, List.isEmpty_iff] using h
    subst hp
    cases l3 with
    | nil => rfl
    | cons c t => simp [isSubChars, List.isPrefixOf]
  | cons c t ih =>
    simp only [isSubChars, Bool.or_eq_true] at h
    simp only [List.cons_append, isSubChars, Bool.or_eq_true]
    rcases h with h | h
    · exact Or.inl (isPrefixOf_append pat (c :: t) l3 h)
    · exact Or.inr (ih h)

theorem isSubChars_extendL (pat l0 l2 : List Char) (h : isSubChars pat l2 = true) :
    isSubChars pat (l0 ++ l2) = true := by
  induction l0 with
  | nil => simpa using h
  | cons c t ih => simp [isSubChars, ih]

theorem containsSub_extendR (s t pat : String) (h : containsSub s pat = true) :
    containsSub (s ++ t) pat = true := by
  simpa [containsSub, String.data_append] using
    isSubChars_extendR pat.data s.data t.data (by simpa [containsSub] using h)

theorem containsSub_extendL (s t pat : String) (h : containsSub t pat = true) :
    containsSub (s ++ t) pat = true := by
  simpa [containsSub, String.data_append] using
    isSubChars_extendL pat.data s.data t.data (by simpa [containsSub] using h)

theorem usageString_has_header (cats : List (String × Category)) :
    containsSub (usageString cats) ("Available Commands") = true := by
  unfold usageString
  repeat first
    | decide
    | apply containsSub_extendR

theorem parseOne_seen_length (vals v : List FlagEntry) (args r : List String)
    (h : parseOne vals args = .seen v r) : r.length < args.length := by
  unfold parseOne at h
  repeat' first
    | (split at h)
    | (dsimp only at h)
  all_goals try cases h
  all_goals (simp <;> omega)

theorem parseLoopF_fuel (fuel1 : Nat) :
    ∀ (fuel2 : Nat) (vals : List FlagEntry) (args : List String),
      args.length ≤ fuel1 → args.length ≤ fuel2 →
      parseLoopF vals args fuel1 = parseLoopF vals args fuel2 := by
  induction fuel1 with
  | zero =>
    intro fuel2 vals args h1 h2
    have hargs : args = [] := List.eq_nil_of_length_eq_zero (Nat.le_zero.mp h1)
    subst hargs
    cases fuel2 with
    | zero => rfl
    | succ m => rfl
  | succ n ih =>
    intro fuel2 vals args h1 h2
    cases fuel2 with
    | zero =>
      have hargs : args = [] := List.eq_nil_of_length_eq_zero (Nat.le_zero.mp h2)
      subst hargs
      rfl
    | succ m =>
      cases args with
      | nil => rfl
      | cons s rest =>
        simp only [parseLoopF]
        cases hp : parseOne vals (s :: rest) with
        | done => rfl
        | help => rfl
        | fail msg => rfl
        | seen vals2 rest2 =>
          have hlen := parseOne_seen_length vals vals2 (s :: rest) rest2 hp
          simp only [List.length_cons] at hlen h1 h2
          exact ih m vals2 rest2 (by omega) (by omega)

theorem parseOne_stops (vals : List FlagEntry) (tail : List String)
    (h : consumesNoFlag tail = true) : parseOne vals tail = .done := by
  cases tail with
  | nil => rfl
  | cons s rest =>
    unfold parseOne
    cases hd : s.data with
    | nil => simp [hd]
    | cons c0 cs =>
      cases cs with
      | nil => simp [hd]
      | cons c1 cs2 =>
        simp only [consumesNoFlag, hd, Bool.or_eq_true, Bool.and_eq_true,
          decide_eq_true_eq, List.isEmpty_iff] at h
        by_cases hc : c0 = '-'
        · rcases h with h1 | ⟨h1, h2⟩
          · exact absurd hc h1
          · simp [hd, hc, h1, h2]
        · simp [hd, hc]

theorem parseLoop_stops (vals : List FlagEntry) (tail : List String)
    (h : consumesNoFlag tail = true) : parseLoop vals tail = .ok vals := by
  cases tail with
  | nil => rfl
  | cons s rest =>
    simp only [parseLoop, List.length_cons, parseLoopF, parseOne_stops vals (s :: rest) h]

theorem lookupFlag_append (n : String) (l1 l2 : List FlagEntry) :
    lookupFlag n (l1 ++ l2)
      = match lookupFlag n l1 with
        | some v => some v
        | none => lookupFlag n l2 := by
  induction l1 with
  | nil => simp [lookupFlag]
  | cons e t ih =>
    obtain ⟨k, v⟩ := e
    by_cases h : k = n <;> simp [lookupFlag, h, ih]

theorem registerFlagsFrom_preserves (fields : List StructField) :
    ∀ (acc entries : List FlagEntry) (nm : String),
      registerFlagsFrom acc fields = .ok entries →
      (lookupFlag nm acc).isSome = true →
      lookupFlag nm entries = lookupFlag nm acc := by
  induction fields with
  | nil =>
    intro acc entries nm h hs
    simp only [registerFlagsFrom] at h
    cases h
    rfl
  | cons f fs ih =>
    intro acc entries nm h hs
    simp only [registerFlagsFrom] at h
    by_cases hg : f.kind.isSupported = true
    · rw [if_pos hg] at h
      by_cases hacc : (lookupFlag (fieldFlagName f) acc).isSome = true
      · rw [if_pos hacc] at h
        cases h
      · rw [if_neg hacc] at h
        have h2 : (lookupFlag nm
            (acc ++ [(fieldFlagName f, f.kind.flagKind, fieldDefault f)])).isSome = true := by
          rw [lookupFlag_append]
          cases hl : lookupFlag nm acc with
          | none => rw [hl] at hs; simp at hs
          | some v => simp
        have h3 := ih _ entries nm h h2
        rw [h3, lookupFlag_append]
        cases hl : lookupFlag nm acc with
        | none => rw [hl] at hs; simp at hs
        | some v => simp [hl]
    · rw [if_neg hg] at h
      exact ih acc entries nm h hs

theorem registerFlagsFrom_fresh (fields : List StructField) :
    ∀ (acc entries : List FlagEntry),
      registerFlagsFrom acc fields = .ok entries →
      ∀ f ∈ fields, f.kind.isSupported = true →
        lookupFlag (fieldFlagName f) acc = none := by
  induction fields with
  | nil =>
    intro acc entries h f hf
    simp at hf
  | cons g gs ih =>
    intro acc entries h f hf hsup
    simp only [registerFlagsFrom] at h
    by_cases hg : g.kind.isSupported = true
    · rw [if_pos hg] at h
      by_cases hacc : (lookupFlag (fieldFlagName g) acc).isSome = true
      · rw [if_pos hacc] at h
        cases h
      · rw [if_neg hacc] at h
        rcases List.mem_cons.mp hf with rfl | hmem
        · cases hl : lookupFlag (fieldFlagName f) acc with
          | none => rfl
          | some v => rw [hl] at hacc; simp at hacc
        · have h2 := ih _ entries h f hmem hsup
          rw [lookupFlag_append] at h2
          cases hl : lookupFlag (fieldFlagName f) acc with
          | none => rfl
          | some v => rw [hl] at h2; simp at h2
    · rw [if_neg hg] at h
      rcases List.mem_cons.mp hf with rfl | hmem
      · exact absurd hsup hg
      · exact ih acc entries h f hmem hsup

theorem registerFlagsFrom_lookup (fields : List StructField) :
    ∀ (acc entries : List FlagEntry),
      registerFlagsFrom acc fields = .ok entries →
      ∀ f ∈ fields, f.kind.isSupported = true →
        lookupFlag (fieldFlagName f) acc = none →
        lookupFlag (fieldFlagName f) entries = some (f.kind.flagKind, fieldDefault f) := by
  induction fields with
  | nil =>
    intro acc entries h f hf
    simp at hf
  | cons g gs ih =>
    intro acc entries h f hf hsup hnone
    simp only [registerFlagsFrom] at h
    by_cases hg : g.kind.isSupported = true
    · rw [if_pos hg] at h
      by_cases hacc : (lookupFlag (fieldFlagName g) acc).isSome = true
      · rw [if_pos hacc] at h
        cases h
      · rw [if_neg hacc] at h
        rcases List.mem_cons.mp hf with rfl | hmem
        · have hacc2 : lookupFlag (fieldFlagName f)
              (acc ++ [(fieldFlagName f, f.kind.flagKind, fieldDefault f)])
              = some (f.kind.flagKind, fieldDefault f) := by
            rw [lookupFlag_append, hnone]
            simp [lookupFlag]
          have hp := registerFlagsFrom_preserves gs _ entries (fieldFlagName f) h
            (by rw [hacc2]; rfl)
          rw [hp, hacc2]
        · by_cases heq : fieldFlagName f = fieldFlagName g
          · have hf2 := registerFlagsFrom_fresh gs _ entries h f hmem hsup
            rw [lookupFlag_append, hnone] at hf2
            simp [lookupFlag, heq] at hf2
          · have hacc2 : lookupFlag (fieldFlagName f)
                (acc ++ [(fieldFlagName g, g.kind.flagKind, fieldDefault g)]) = none := by
              rw [lookupFlag_append, hnone]
              simp [lookupFlag, Ne.symm heq]
            exact ih _ entries h f hmem hsup hacc2
    · rw [if_neg hg] at h
      rcases List.mem_cons.mp hf with rfl | hmem
      · exact absurd hsup hg
      · exact ih acc entries h f hmem hsup hnone

theorem bindStruct_registerFlags (fields : List StructField) (entries : List FlagEntry)
    (hreg : registerFlags fields = .ok entries)
    (hsup : ∀ f ∈ fields, f.kind.isSupported = true) :
    bindStruct fields entries = fields.map fieldDefault := by
  unfold bindStruct
  apply List.map_congr_left
  intro f hf
  have h2 := registerFlagsFrom_lookup fields [] entries hreg f hf (hsup f hf) rfl
  simp [hsup f hf, h2]

theorem findIn_registerCats (cats : List (String × Category)) (catName : String) (cmd : Command)
    (hcat : (mapLookup catName cats).isSome = true)
    (huniq : ∀ p ∈ cats, p.1 ≠ catName → mapLookup cmd.name p.2.commands = none) :
    findIn cmd.name (registerCats catName cmd cats) = .ok cmd := by
  induction cats with
  | nil => simp [mapLookup] at hcat
  | cons p t ih =>
    obtain ⟨n, cat⟩ := p
    by_cases hn : n = catName
    · subst hn
      simp [registerCats, findIn, mapLookup_insert_self]
    · have hhead := huniq (n, cat) (by simp) hn
      simp only [registerCats, if_neg hn, findIn, hhead]
      apply ih
      · simpa [mapLookup, hn] using hcat
      · exact fun q hq hq2 => huniq q (List.mem_cons_of_mem _ hq) hq2

theorem findIn_insert_empty (cmdName name : String) (cats : List (String × Category))
    (hnd : (cats.map Prod.fst).Nodup)
    (h : ∀ p ∈ cats, p.1 ≠ name → mapLookup cmdName p.2.commands = none) :
    findIn cmdName (mapInsert name ⟨name, []⟩ cats) = .error (.unknownCommand cmdName) := by
  induction cats with
  | nil => rfl
  | cons p t ih =>
    obtain ⟨k, cat⟩ := p
    by_cases hk : k = name
    · subst hk
      simp only [mapInsert, if_pos rfl, findIn, mapLookup]
      apply findIn_none
      intro q hq
      have hqne : q.1 ≠ k := by
        intro he
        rw [List.map_cons, List.nodup_cons] at hnd
        have hmem : q.1 ∈ t.map Prod.fst := List.mem_map_of_mem Prod.fst hq
        rw [he] at hmem
        exact hnd.1 hmem
      exact h q (List.mem_cons_of_mem _ hq) hqne
    · have hhead := h (k, cat) (by simp) hk
      simp only [mapInsert, if_neg hk, findIn, hhead]
      apply ih
      · exact List.Nodup.of_cons (by simpa using hnd)
      · exact fun q hq hq2 => h q (List.mem_cons_of_mem _ hq) hq2

/-! ### Claim theorems -/

/-- Claim C1: the claim says a flag tail that does not match the synthesized
schema makes `Run` return the parse error to its caller.  The code creates the
flag set with `flag.ExitOnError`, so the unknown flag `--bogus` makes the
process exit with code 2 inside `fs.Parse`: `Run` never returns, and the
handler is never invoked (no `ret` outcome, no recorded call).  This
contradicts `Run`'s own documentation ("Returns an error if ... Flag parsing
fails") and the dead error-return branch in `handleStructArgs`. -/
theorem run_parse_error_exits_process :
    (mkTest ["prog", "test", "--bogus"]).run
      = .exited (mkTest ["prog", "test", "--bogus"]) 2 := by decide

/-- Claim C2: the claim says dispatch rejects any handler whose parameter
count is not 1 or 2 with `InvalidHandler`.  `isValidHandler` only checks
`NumIn() >= 1` plus the context-typed first parameter, so the three-parameter
handler `func(context.Context, TestArgs, int)` passes validation, its struct
parameter is bound, and `reflect.Value.Call` then panics on the zero third
argument -- `Run` panics instead of returning `InvalidHandler`. -/
theorem three_param_handler_passes_validation_and_panics :
    isValidHandler cmd3.handler = true
    ∧ cmd3.handler.params.length = 3
    ∧ (mkTest3 ["prog", "test"]).run
        = .panicked (mkTest3 ["prog", "test"]) ("reflect: Call using zero Value argument") := by
  decide

/-- Claim C3 (counterexample): the claim says a malformed integer default
coerces to 0.  `handleStructArgs` reads integer defaults with
`fmt.Sscanf(defaultValue, "%d", &defaultInt)`, which scans a leading decimal
prefix: the default tag `12abc` binds the field to 12, not 0, when the command
is dispatched with an empty token tail. -/
theorem int_default_prefix_coercion_counterexample :
    (mkNum ["prog", "num"]).run
      = .ret (mkNum ["prog", "num"]) none [("num", .structArg [.intV 12])]
    ∧ ¬ GoValue.intV 12 = GoValue.intV 0 := by
  decide

/-- Claim C3 (amended): for every Structured flat-struct handler whose fields
are all of the supported kinds, dispatched with a token tail supplying no
flags, when the synthesized flag registration does not panic on a duplicate
flag name, every field of the bound structure equals its tag-declared default
under the coercion rules: a boolean default coerces to true exactly when the
tag is the string true; a string default passes through unchanged; an integer
default is read by `fmt.Sscanf` with the decimal verb, so a default that
fails the scan (absent, no leading decimal integer, a leading newline, or a
value outside the signed 64-bit range) coerces to 0, while a default with a
valid leading integer followed by junk coerces to that leading value.  The
hypothesis `hascii` confines the statement to field names whose lower-casing
the model shares with Go: a field either carries an explicit flag tag (never
case-folded) or has an ASCII-only name, where this file's ASCII `toLower`
agrees with Go's Unicode `strings.ToLower`. -/
theorem structured_dispatch_binds_tag_defaults (c : Commander) (cmd : Command)
    (fields : List StructField) (tail : List String) (entries : List FlagEntry)
    (hh : cmd.handler = .user [.context, .structT fields])
    (hreg : registerFlags fields = .ok entries)
    (hascii : ∀ f ∈ fields, f.tagFlag ≠ "" ∨ f.name.data.all (fun ch => ch.toNat < 128))
    (hsup : ∀ f ∈ fields, f.kind.isSupported = true)
    (ht : consumesNoFlag tail = true) :
    executeCommand c cmd tail
      = .ret c none [(cmd.name, .structArg (fields.map fieldDefault))]
    ∧ ∀ f ∈ fields,
        (f.kind = .boolK → fieldDefault f = .boolV (decide (f.tagDefault = "true")))
        ∧ (f.kind = .stringK → fieldDefault f = .stringV f.tagDefault)
        ∧ (f.kind = .intK → f.tagDefault = "" → fieldDefault f = .intV 0)
        ∧ (f.kind = .intK →
            fieldDefault f = .intV (if f.tagDefault ≠ "" then sscanfD f.tagDefault else 0)) := by
  constructor
  · simp [executeCommand, callHandler, hh, isValidHandler, Handler.params, isContextParam,
      hreg, parseLoop_stops entries tail ht, bindStruct_registerFlags fields entries hreg hsup]
  · intro f hf
    refine ⟨fun hk => ?_, fun hk => ?_, fun hk he => ?_, fun hk => ?_⟩
    · simp [fieldDefault, hk]
    · simp [fieldDefault, hk]
    · simp [fieldDefault, hk, he]
    · simp [fieldDefault, hk]

/-- Witness for the amended C3 theorem at the test schema with an empty token
tail. -/
theorem structured_dispatch_binds_tag_defaults_witness :
    executeCommand (mkTest ["prog", "test"]) testCmd []
      = .ret (mkTest ["prog", "test"]) none
          [("test", .structArg (testFields.map fieldDefault))] :=
  (structured_dispatch_binds_tag_defaults (mkTest ["prog", "test"]) testCmd testFields []
    [("flag1", .boolF, .boolV false), ("flag2", .stringF, .stringV "test")]
    rfl rfl (by decide) (by decide) rfl).1

/-- Claim C4: flags supplied in the token tail override the declared defaults
while unsupplied fields keep theirs: dispatching
`["prog","test","--flag2","value"]` against the test schema (where `flag2`
defaults to the string test) binds `Flag2` to `value` with `Flag1` at its
default, and dispatching `["prog","test","--flag1"]` (boolean `flag1`
defaulting to false) binds `Flag1` to true with `Flag2` at its default. -/
theorem flags_override_defaults_roundtrip :
    (mkTest ["prog", "test", "--flag2", "value"]).run
      = .ret (mkTest ["prog", "test", "--flag2", "value"]) none
          [("test", .structArg [.boolV false, .stringV "value"])]
    ∧ (mkTest ["prog", "test", "--flag1"]).run
      = .ret (mkTest ["prog", "test", "--flag1"]) none
          [("test", .structArg [.boolV true, .stringV "test"])] := by
  decide

/-- Claim C5: a command registered into an existing category and then looked
up by its exact name is returned by `findCommand` (not an error), provided no
other category holds a command of the same name. -/
theorem findCommand_returns_registered (c : Commander) (catName : String) (cmd : Command)
    (hcat : (mapLookup catName c.categories).isSome = true)
    (huniq : ∀ p ∈ c.categories, p.1 ≠ catName → mapLookup cmd.name p.2.commands = none) :
    (c.registerIn catName cmd).findCommand cmd.name = .ok cmd :=
  findIn_registerCats c.categories catName cmd hcat huniq

/-- Witness for C5 at the test command registered into a fresh `Test`
category. -/
theorem findCommand_returns_registered_witness :
    (((newWithArgs ["prog", "test"]).addCategory ("Test")).registerIn ("Test") testCmd).findCommand
        testCmd.name = .ok testCmd :=
  findCommand_returns_registered ((newWithArgs ["prog", "test"]).addCategory ("Test")) ("Test")
    testCmd (by decide) (by decide)

set_option maxRecDepth 40000 in
/-- Claim C6 (counterexample): the claim says the usage rendered for an
unknown command contains that command name.  On the freshly constructed
commander dispatched with `["prog","bogus"]`, `Run` does return the
`UnknownCommand` error and renders usage, but the rendered usage (the
registry listing) contains no occurrence of the string bogus -- only the
returned error value carries the name. -/
theorem unknown_command_usage_lacks_name :
    (newWithArgs ["prog", "bogus"]).run
      = .ret (newWithArgs ["prog", "bogus"]).printUsage (some (.unknownCommand ("bogus"))) []
    ∧ containsSub ((newWithArgs ["prog", "bogus"]).printUsage.output) ("bogus") = false := by
  decide

/-- Claim C6 (amended): for every token sequence whose first command token
names a command present in no category, `Run` returns an `UnknownCommand`
error whose message contains that command name, and renders the usage listing
(which does not in general contain the name) to the configured output without
invoking any handler. -/
theorem unknown_command_error_carries_name (c : Commander) (prog name : String)
    (tail : List String) (hargs : c.args = prog :: name :: tail)
    (habs : ∀ p ∈ c.categories, mapLookup name p.2.commands = none) :
    c.run = .ret c.printUsage (some (.unknownCommand name)) []
    ∧ containsSub (RunError.message (.unknownCommand name)) name = true := by
  constructor
  · have hf : findIn name c.categories = .error (.unknownCommand name) :=
      findIn_none name c.categories habs
    simp [Commander.run, hargs, Commander.findCommand, hf]
  · simpa [RunError.message] using containsSub_append_right ("unknown command: ") name

/-- Witness for the amended C6 theorem on a fresh commander and the unknown
command name missing. -/
theorem unknown_command_error_carries_name_witness :
    (newWithArgs ["prog", "missing"]).run
      = .ret (newWithArgs ["prog", "missing"]).printUsage (some (.unknownCommand ("missing"))) []
    ∧ containsSub (RunError.message (.unknownCommand ("missing"))) ("missing") = true :=
  unknown_command_error_carries_name (newWithArgs ["prog", "missing"]) ("prog") ("missing") []
    rfl (by decide)

/-- Claim C7: for every token sequence shorter than 2 elements, `Run` renders
usage to the configured output and returns `NoSubcommand`, invoking no
handler (the empty call list). -/
theorem run_without_command_token_renders_usage (c : Commander) (h : c.args.length < 2) :
    c.run = .ret c.printUsage (some .noSubcommand) [] := by
  rcases hc : c.args with _ | ⟨a, _ | ⟨b, t⟩⟩
  · simp [Commander.run, hc]
  · simp [Commander.run, hc]
  · rw [hc] at h
    simp only [List.length_cons] at h
    omega

/-- Witness for C7 at the one-token sequence. -/
theorem run_without_command_token_renders_usage_witness :
    (newWithArgs ["prog"]).run
      = .ret (newWithArgs ["prog"]).printUsage (some .noSubcommand) [] :=
  run_without_command_token_renders_usage (newWithArgs ["prog"]) (by decide)

set_option maxRecDepth 40000 in
/-- Claim C8: a commander constructed with `["prog","help"]` runs the
auto-registered help command with an empty argument: `Run` returns no error
and the configured output contains the literal string Available Commands. -/
theorem help_no_arg_prints_available_commands :
    (newWithArgs ["prog", "help"]).run
      = .ret (newWithArgs ["prog", "help"]).printUsage none [("help", .stringArg (""))]
    ∧ containsSub ((newWithArgs ["prog", "help"]).printUsage.output) ("Available Commands")
        = true := by
  decide

/-- Claim C9: for every commander dispatched with tokens
`[prog, "help", name]` where the command found under help is the built-in
help command and the nonempty `name` matches no registered command, `Run`
returns no error -- it is not a dispatch failure -- and the output is
extended by a red error-indicator line for the unknown name followed by the
full usage listing (which contains the string Available Commands). -/
theorem help_unknown_arg_error_line_then_usage (c : Commander) (prog name : String)
    (hargs : c.args = [prog, "help", name])
    (hfind : c.findCommand ("help") = .ok helpCommand)
    (hname : ¬ name = "")
    (habs : ∀ p ∈ c.categories, mapLookup name p.2.commands = none) :
    c.run
      = .ret ((c.writeOut
            (colorRed ++ ("unknown command: " ++ name) ++ colorReset ++ "\n")).printUsage)
          none [("help", .stringArg name)]
    ∧ containsSub
        (((c.writeOut
            (colorRed ++ ("unknown command: " ++ name) ++ colorReset ++ "\n")).printUsage).output)
        ("Available Commands") = true := by
  have hfind2 : findIn ("help") c.categories = .ok helpCommand := hfind
  have hf : findIn name c.categories = .error (.unknownCommand name) :=
    findIn_none name c.categories habs
  constructor
  · simp [Commander.run, hargs, Commander.findCommand, hfind2, executeCommand, isValidHandler,
      Handler.params, isContextParam, helpCommand, callHandler, Commander.helpHandlerRun,
      hname, hf, RunError.message]
  · simp only [Commander.printUsage, Commander.writeOut]
    exact containsSub_extendL _ _ _ (usageString_has_header c.categories)

/-- Witness for C9 at the constructor-fresh commander and the unknown name
bogus. -/
theorem help_unknown_arg_error_line_then_usage_witness :
    (newWithArgs ["prog", "help", "bogus"]).run
      = .ret
          (((newWithArgs ["prog", "help", "bogus"]).writeOut
            (colorRed ++ ("unknown command: " ++ "bogus") ++ colorReset ++ "\n")).printUsage)
          none [("help", .stringArg ("bogus"))]
    ∧ containsSub
        ((((newWithArgs ["prog", "help", "bogus"]).writeOut
            (colorRed ++ ("unknown command: " ++ "bogus") ++ colorReset ++ "\n")).printUsage).output)
        ("Available Commands") = true :=
  help_unknown_arg_error_line_then_usage (newWithArgs ["prog", "help", "bogus"]) ("prog")
    ("bogus") rfl rfl (by decide) (by decide)

/-- Claim C10: `AddCategory(name)` installs a fresh category with an empty
command map under that name: any category previously stored there is replaced
(so its commands become unreachable through `findCommand`), categories under
every other name are untouched, and in particular re-adding the `Help`
category removes the built-in help command. -/
theorem addCategory_installs_fresh_category (c : Commander) (name : String)
    (hnd : (c.categories.map Prod.fst).Nodup) :
    mapLookup name (c.addCategory name).categories = some ⟨name, []⟩
    ∧ (∀ n, ¬ n = name →
        mapLookup n (c.addCategory name).categories = mapLookup n c.categories)
    ∧ ∀ cmdName, (∀ p ∈ c.categories, p.1 ≠ name → mapLookup cmdName p.2.commands = none) →
        (c.addCategory name).findCommand cmdName = .error (.unknownCommand cmdName) :=
  ⟨mapLookup_insert_self name _ c.categories,
   fun n hn => mapLookup_insert_ne name n _ c.categories hn,
   fun cmdName hcm => findIn_insert_empty cmdName name c.categories hnd hcm⟩

/-- Witness for C10: re-adding the `Help` category installs an empty category
and makes the built-in help command unfindable. -/
theorem addCategory_installs_fresh_category_witness :
    mapLookup ("Help") ((newWithArgs ["prog"]).addCategory ("Help")).categories
      = some ⟨"Help", []⟩
    ∧ ((newWithArgs ["prog"]).addCategory ("Help")).findCommand ("help")
      = .error (.unknownCommand ("help")) :=
  ⟨(addCategory_installs_fresh_category (newWithArgs ["prog"]) ("Help") (by decide)).1,
   (addCategory_installs_fresh_category (newWithArgs ["prog"]) ("Help") (by decide)).2.2
     ("help") (by decide)⟩
